import Mathlib

/-!
Verification of the Hamyon finance-bot ingestion core.

This file gives a shallow embedding of the decision logic of the repository
(amount parsing, category classification, the per-user pending-selection flow,
ledger and balance maintenance, and budget-limit evaluation) and proves the
specified properties about it.

Embedding conventions:
* Text is `String` / `List Char`.  The Python `re` searches used by
  `parse_amount` and the JavaScript regexes of `parseAmount` are embedded as
  explicit leftmost-search functions with the same backtracking choices the
  patterns admit (greedy digit runs with shorter retries, optional decimal
  group, `\s*` skip, token alternation, word-boundary checks and the
  `(?!ing)` negative lookahead).
* A captured decimal literal is represented exactly as `DecNum` (a mantissa
  over a power of ten).  The machine floats of `int(float(g) * scale)` /
  `parseFloat(g) * scale` are modelled by `Fp`: binary64 values with a
  53-bit significand, produced by correct round-to-nearest-ties-to-even
  (`roundQ`) for both the decimal-to-float conversion and the scale
  multiplication, so e.g. `parse_amount "1.001k" = 1000` exactly as in
  CPython (`float("1.001") * 1000 = 1000.9999999999999`).  Python
  `int(...)` on the nonnegative product (truncation toward zero) is
  natural-number division; a lemma connects it to `Int.floor` over `ℚ`.
  The binary64 exponent range is modelled as unbounded: overflow to
  infinity and subnormal rounding need captured literals of three hundred
  or more digits, far outside monetary text.
* The external store is embedded as explicit state: per-user balance, ledger
  and pending selection, plus the read-only budget-limit table.
-/

namespace Hamyon

/-- Word characters for the Python regex word boundary.  Python's `re` is
Unicode-aware: `\w` is Unicode alphanumerics plus the underscore, so the
Cyrillic letters of the token sets count as word characters while
punctuation and emoji do not.  Letters are modelled for the scripts the
taxonomy and token sets use (Latin and the Cyrillic block U+0400-U+04FF);
letters of other scripts are not modelled as word characters. -/
def isWordCharPy (c : Char) : Bool :=
  c.isAlphanum || c == '_' || (0x400 ≤ c.toNat && c.toNat ≤ 0x4FF)

/-- Word characters for a JavaScript regex `\b` without the `u` flag:
`\w` is `[A-Za-z0-9_]` only, so Cyrillic letters are not word characters. -/
def isWordCharJs (c : Char) : Bool :=
  c.isAlphanum || c == '_'

/-- Word-boundary test between a preceding character `prev` (the last
character of the matched token) and the remaining input: `\b` holds iff
exactly one side is a word character (the position past the end of the
input counts as non-word). -/
def boundaryAt (isW : Char → Bool) (prev : Char) (rest : List Char) : Bool :=
  match rest with
  | [] => isW prev
  | c :: _ => isW prev != isW c

/-- Match a literal token at the head of the input, returning the rest. -/
def matchTok : List Char → List Char → Option (List Char)
  | [], cs => some cs
  | _ :: _, [] => none
  | t :: ts, c :: cs => if c == t then matchTok ts cs else none

/-- Match one of a list of literal tokens at the head of the input, each
followed by a word-boundary check (the alternation `(?:t₁|t₂|…)\b`). -/
def altBoundary (isW : Char → Bool) (toks : List (List Char)) (cs : List Char) : Bool :=
  toks.any (fun t =>
    match matchTok t cs with
    | some rest => boundaryAt isW (t.getLastD 'x') rest
    | none => false)

/-- Match the lone-suffix-letter million rule `m(?!ing)\b` at the head of
the input: an `m`, not continued by `ing`, at a word boundary. -/
def loneM (isW : Char → Bool) (cs : List Char) : Bool :=
  match cs with
  | 'm' :: rest => !(List.isPrefixOf "ing".data rest) && boundaryAt isW 'm' rest
  | _ => false

/-- Numeric value of a digit run (most significant digit first). -/
def digitsToNat (ds : List Char) : ℕ :=
  ds.foldl (fun acc c => 10 * acc + (c.toNat - '0'.toNat)) 0

/-- Exact decimal number `mant / 10 ^ exp`, the value of a captured literal
like `1.5` before any floating-point conversion. -/
structure DecNum where
  mant : ℕ
  exp : ℕ
deriving DecidableEq

/-- A nonnegative binary64 floating-point value `m * 2 ^ e` (zero is
`m = 0`, otherwise `m` is the normalized 53-bit significand in
`[2^52, 2^53)`).  The exponent range is unbounded — see the header note. -/
structure Fp where
  m : ℕ
  e : ℤ
deriving DecidableEq

/-- Floor of the base-2 logarithm, by structural fuel (the fuel `n` always
covers the `⌊log₂ n⌋` halving steps, and the recursion exits early). -/
def log2Fuel : ℕ → ℕ → ℕ
  | 0, _ => 0
  | fuel + 1, n => if 2 ≤ n then log2Fuel fuel (n / 2) + 1 else 0

/-- `⌊log₂ n⌋` (0 for `n = 0`). -/
def log2N (n : ℕ) : ℕ :=
  log2Fuel n n

/-- Round `sn / sd` to the nearest integer, ties to even (`sd ≠ 0`). -/
def rne (sn sd : ℕ) : ℕ :=
  let q := sn / sd
  let r := sn % sd
  if 2 * r < sd then q
  else if sd < 2 * r then q + 1
  else if q % 2 = 0 then q else q + 1

/-- The fraction `(a / b) / 2 ^ k` as a quotient of naturals. -/
def scaledFrac (a b : ℕ) (k : ℤ) : ℕ × ℕ :=
  if 0 ≤ k then (a, b * 2 ^ k.toNat) else (a * 2 ^ (-k).toNat, b)

/-- Correct binary64 rounding of the positive rational `a / b`
(round to nearest, ties to even): normalize the significand into
`[2^52, 2^53)` — the exponent guess from the logarithms is stepped up when
the rounded significand is still too large (including the carry past
`2^53`). -/
def roundQ (a b : ℕ) : Fp :=
  if a = 0 then ⟨0, 0⟩
  else
    let k0 : ℤ := (log2N a : ℤ) - (log2N b : ℤ) - 53
    let p1 := scaledFrac a b k0
    let n1 := rne p1.1 p1.2
    if n1 < 2 ^ 53 then ⟨n1, k0⟩
    else
      let p2 := scaledFrac a b (k0 + 1)
      let n2 := rne p2.1 p2.2
      if n2 < 2 ^ 53 then ⟨n2, k0 + 1⟩
      else
        let p3 := scaledFrac a b (k0 + 2)
        ⟨rne p3.1 p3.2, k0 + 2⟩

/-- `float(g)` for a captured decimal literal `mant / 10^exp`: CPython's
string-to-float conversion is correctly rounded to binary64. -/
def fpOfDec (d : DecNum) : Fp :=
  roundQ d.mant (10 ^ d.exp)

/-- Binary64 multiplication by an exactly representable natural scale
(1 000 000 or 1 000 here): the exact product, correctly rounded. -/
def fpMulNat (f : Fp) (s : ℕ) : Fp :=
  if 0 ≤ f.e then roundQ (f.m * s * 2 ^ f.e.toNat) 1
  else roundQ (f.m * s) (2 ^ (-f.e).toNat)

/-- `int(...)` of a nonnegative double: truncation toward zero (which on a
nonnegative value is the floor, `fpTruncToNat_eq_floor`). -/
def fpTruncToNat (f : Fp) : ℕ :=
  if 0 ≤ f.e then f.m * 2 ^ f.e.toNat else f.m / 2 ^ (-f.e).toNat

/-- Exact rational value of a modelled double. -/
def Fp.val (f : Fp) : ℚ :=
  if 0 ≤ f.e then ((f.m * 2 ^ f.e.toNat : ℕ) : ℚ)
  else ((f.m : ℕ) : ℚ) / ((2 ^ (-f.e).toNat : ℕ) : ℚ)

/-- The embedding of `int(float(g) * scale)` for a captured decimal `g`:
convert the exact decimal to binary64 (`fpOfDec`), multiply by the scale
with binary64 rounding (`fpMulNat`), and truncate toward zero
(`fpTruncToNat`). -/
def scaleTrunc (d : DecNum) (s : ℕ) : ℕ :=
  fpTruncToNat (fpMulNat (fpOfDec d) s)

/-- Candidate values of the capture group `(\d+(?:[.,]\d+)?)` given the
chosen integer-part digits `intDs` and the input after them: first the
optional decimal group with every fractional length, longest first (the
greedy choice with its backtracking retries), then the group left out.
Each candidate pairs the captured number with the input remaining after
it; the value of `intDs ++ take fl run` over `10 ^ fl` is exactly
`int-part + frac-part / 10 ^ fl`. -/
def numCands (intDs rest1 : List Char) : List (DecNum × List Char) :=
  let fracs : List (DecNum × List Char) :=
    match rest1 with
    | sep :: ds =>
      if sep == '.' || sep == ',' then
        let run := ds.takeWhile (·.isDigit)
        (List.range run.length).reverse.map (fun j =>
          let fl := j + 1
          (⟨digitsToNat (intDs ++ run.take fl), fl⟩, ds.drop fl))
      else []
    | [] => []
  fracs ++ [(⟨digitsToNat intDs, 0⟩, rest1)]

/-- Return the first candidate whose remaining input, after the `\s*` skip,
satisfies the suffix matcher. -/
def firstMatch (sfx : List Char → Bool) : List (DecNum × List Char) → Option DecNum
  | [] => none
  | (q, rest) :: more =>
    if sfx (rest.dropWhile Char.isWhitespace) then some q else firstMatch sfx more

/-- Try the scaled-number pattern `(\d+(?:[.,]\d+)?)\s*SFX` at the current
position (which must start with a digit): every integer-part length, longest
first, combined with the decimal-group candidates. -/
def tryNumberAt (sfx : List Char → Bool) (cs : List Char) : Option DecNum :=
  let run := cs.takeWhile (·.isDigit)
  let cands := ((List.range run.length).reverse.map
    (fun j => numCands (run.take (j + 1)) (cs.drop (j + 1)))).flatten
  firstMatch sfx cands

/-- Leftmost search for the scaled-number pattern: try every position whose
character is a digit, in order. -/
def searchScaled (sfx : List Char → Bool) : List Char → Option DecNum
  | [] => none
  | c :: cs =>
    if c.isDigit then
      match tryNumberAt sfx (c :: cs) with
      | some q => some q
      | none => searchScaled sfx cs
    else searchScaled sfx cs

/-- Greedily collect the groups of `(?:[,\s]\d{3})+`: each group is a comma
or whitespace separator followed by exactly three digits.  Returns the
collected digits and the input after the last full group. -/
def sepGroups : List Char → List Char × List Char
  | sep :: a :: b :: c :: rest =>
    if (sep == ',' || sep.isWhitespace) && a.isDigit && b.isDigit && c.isDigit then
      let (ds, r) := sepGroups rest
      (a :: b :: c :: ds, r)
    else ([], sep :: a :: b :: c :: rest)
  | cs => ([], cs)

/-- Try the grouped-literal pattern `(\d{1,3}(?:[,\s]\d{3})+)` at the current
position: `\d{1,3}` is greedy with retries, and at least one separator group
must follow.  The value is the digits with separators stripped. -/
def tryFormattedAt (cs : List Char) : Option ℕ :=
  let run := cs.takeWhile (·.isDigit)
  let lens := (List.range (min 3 run.length)).reverse.map (· + 1)
  lens.findSome? (fun il =>
    let (ds, _) := sepGroups (cs.drop il)
    if ds.isEmpty then none else some (digitsToNat (run.take il ++ ds)))

/-- Leftmost search for the grouped-literal pattern. -/
def searchFormatted : List Char → Option ℕ
  | [] => none
  | c :: cs =>
    if c.isDigit then
      match tryFormattedAt (c :: cs) with
      | some n => some n
      | none => searchFormatted cs
    else searchFormatted cs

/-- Value of the first (maximal) digit run in the text, the search `(\d+)`. -/
def firstDigitRun : List Char → Option ℕ
  | [] => none
  | c :: cs =>
    if c.isDigit then some (digitsToNat ((c :: cs).takeWhile (·.isDigit)))
    else firstDigitRun cs

/-- Lower-casing of one character for `str.lower()` / `toLowerCase()`,
which are Unicode-aware: ASCII `A`-`Z` and the Cyrillic capitals `А`-`Я`
(U+0410-U+042F) and `Ё` (U+0401) are folded — the alphabets of the token
sets and keyword sets; characters of other scripts are left unchanged. -/
def toLowerFull (c : Char) : Char :=
  if 0x410 ≤ c.toNat && c.toNat ≤ 0x42F then Char.ofNat (c.toNat + 0x20)
  else if c.toNat = 0x401 then Char.ofNat 0x451
  else c.toLower

/-- Lower-casing of the text, `text.lower()` / `text.toLowerCase()`. -/
def toLowerL (cs : List Char) : List Char :=
  cs.map toLowerFull

/-- Python `str.strip()`: drop whitespace from both ends. -/
def pyStrip (cs : List Char) : List Char :=
  ((cs.dropWhile Char.isWhitespace).reverse.dropWhile Char.isWhitespace).reverse

/-- Million-tier suffix of the Python pattern
`(?:mln|million|миллион|млн|m(?!ing))\b`. -/
def millionSfxPy (cs : List Char) : Bool :=
  altBoundary isWordCharPy ["mln".data, "million".data, "миллион".data, "млн".data] cs
    || loneM isWordCharPy cs

/-- Thousand-tier suffix `(?:k|к|тысяч|ming|минг)\b`. -/
def thousandSfx (isW : Char → Bool) (cs : List Char) : Bool :=
  altBoundary isW ["k".data, "к".data, "тысяч".data, "ming".data, "минг".data] cs

/-- The Python amount parser `parse_amount`: lower-case and strip the text,
then try, in order, the million tier, the thousand tier, the grouped literal,
and the bare digit run with its 100 floor.  The captured decimal is exact
(`DecNum`) and `int(float(g) * s)` is `scaleTrunc`. -/
def parse_amount (text : String) : Option ℤ :=
  let t := pyStrip (toLowerL text.data)
  match searchScaled millionSfxPy t with
  | some d => some ((scaleTrunc d 1000000 : ℕ) : ℤ)
  | none =>
    match searchScaled (thousandSfx isWordCharPy) t with
    | some d => some ((scaleTrunc d 1000 : ℕ) : ℤ)
    | none =>
      match searchFormatted t with
      | some n => some (n : ℤ)
      | none =>
        match firstDigitRun t with
        | some n => if 100 ≤ n then some (n : ℤ) else none
        | none => none

/-- Core of the TypeScript amount parser `parseAmount`: the million tokens
and the lone `m` rule are two separate regexes tried one after the other,
the grouped and bare tiers run on the original (non-lowered) text, and
JavaScript `\b` is ASCII-only.  Each tier returns the captured number and
its scale factor (1 for the literal tiers); there is no truncation in the
TypeScript code. -/
def parseAmountCore (text : String) : Option (DecNum × ℕ) :=
  let lower := toLowerL text.data
  match searchScaled (altBoundary isWordCharJs
      ["mln".data, "million".data, "миллион".data, "млн".data]) lower with
  | some d => some (d, 1000000)
  | none =>
    match searchScaled (loneM isWordCharJs) lower with
    | some d => some (d, 1000000)
    | none =>
      match searchScaled (thousandSfx isWordCharJs) lower with
      | some d => some (d, 1000)
      | none =>
        match searchFormatted text.data with
        | some n => some (⟨n, 0⟩, 1)
        | none =>
          match firstDigitRun text.data with
          | some n => if 100 ≤ n then some (⟨n, 0⟩, 1) else none
          | none => none

/-- The TypeScript amount parser `parseAmount` as the value of the matched
tier: `parseFloat(g) * scale` (and `parseInt` for the literal tiers, with
scale 1) is a binary64 computation, modelled by the same correctly rounded
conversion and multiplication as the Python parser. -/
def parseAmount (text : String) : Option ℚ :=
  (parseAmountCore text).map (fun p => Fp.val (fpMulNat (fpOfDec p.1) p.2))

/-- Transaction kind, the Python `TxType` enum. -/
inductive TxType where
  | expense
  | income
  | debt
deriving DecidableEq, BEq

/-- A category of the taxonomy.  The locale display names and the emoji of
the source dataclass are omitted: they are presentation data (spec §1 treats
translations as an I/O wrapper) and are not consulted by any verified
logic. -/
structure Category where
  id : String
  keywords : List String
  tx_type : TxType
deriving DecidableEq

/-- The category taxonomy, the Python `CATEGORIES` dict in insertion order:
expense categories, then income categories, then debt categories. -/
def CATEGORIES : List Category := [
  ⟨"food", ["food", "oziq", "ovqat", "grocery", "magazin", "продукты", "еда"], .expense⟩,
  ⟨"restaurants", ["restaurant", "restoran", "cafe", "kafe", "ресторан", "кафе"], .expense⟩,
  ⟨"coffee", ["coffee", "kofe", "кофе", "starbucks", "espresso"], .expense⟩,
  ⟨"taxi", ["taxi", "taksi", "yandex", "uber", "такси", "bolt"], .expense⟩,
  ⟨"fuel", ["fuel", "benzin", "gas", "petrol", "бензин", "топливо", "yoqilgi"], .expense⟩,
  ⟨"transport", ["transport", "bus", "avtobus", "metro", "транспорт", "автобус"], .expense⟩,
  ⟨"bills", ["bills", "kommunal", "utility", "electric", "gas", "water", "коммунальные", "свет", "газ"], .expense⟩,
  ⟨"rent", ["rent", "ijara", "kvartira", "аренда", "квартира"], .expense⟩,
  ⟨"shopping", ["shopping", "xarid", "buy", "purchase", "покупки", "шоппинг"], .expense⟩,
  ⟨"clothing", ["clothing", "kiyim", "clothes", "shirt", "pants", "одежда", "футболка"], .expense⟩,
  ⟨"health", ["health", "salomatlik", "medicine", "doctor", "hospital", "pharmacy", "здоровье", "аптека", "врач"], .expense⟩,
  ⟨"beauty", ["beauty", "salon", "haircut", "sartarosh", "красота", "салон"], .expense⟩,
  ⟨"education", ["education", "talim", "course", "kurs", "book", "kitob", "образование", "курс", "книга"], .expense⟩,
  ⟨"entertainment", ["entertainment", "movie", "kino", "cinema", "game", "развлечения", "кино"], .expense⟩,
  ⟨"sports", ["sports", "sport", "gym", "fitness", "спорт", "фитнес", "зал"], .expense⟩,
  ⟨"travel", ["travel", "sayohat", "trip", "vacation", "путешествие", "отпуск"], .expense⟩,
  ⟨"electronics", ["electronics", "phone", "telefon", "laptop", "computer", "электроника", "телефон"], .expense⟩,
  ⟨"gifts", ["gift", "sovga", "present", "подарок"], .expense⟩,
  ⟨"pets", ["pet", "dog", "cat", "mushuk", "it", "питомец", "собака", "кошка"], .expense⟩,
  ⟨"kids", ["kids", "children", "bolalar", "дети", "ребенок"], .expense⟩,
  ⟨"home", ["home", "furniture", "mebel", "uy", "дом", "мебель"], .expense⟩,
  ⟨"internet", ["internet", "wifi", "data", "интернет"], .expense⟩,
  ⟨"phone_bill", ["phone", "mobile", "telefon", "beeline", "ucell", "телефон", "связь"], .expense⟩,
  ⟨"insurance", ["insurance", "sugurta", "страховка"], .expense⟩,
  ⟨"taxes", ["tax", "soliq", "налог"], .expense⟩,
  ⟨"charity", ["charity", "xayriya", "sadaqa", "donation", "благотворительность"], .expense⟩,
  ⟨"subscriptions", ["subscription", "netflix", "spotify", "youtube", "подписка", "obuna"], .expense⟩,
  ⟨"other_expense", ["other", "boshqa", "другое"], .expense⟩,
  ⟨"salary", ["salary", "oylik", "maosh", "ish haqi", "зарплата"], .income⟩,
  ⟨"freelance", ["freelance", "frilanser", "фриланс", "project", "loyiha"], .income⟩,
  ⟨"business", ["business", "biznes", "бизнес", "savdo"], .income⟩,
  ⟨"investments", ["investment", "investitsiya", "dividend", "инвестиции", "дивиденды"], .income⟩,
  ⟨"bonus", ["bonus", "award", "mukofot", "бонус", "премия"], .income⟩,
  ⟨"gift_income", ["gift", "sovga", "present", "подарок"], .income⟩,
  ⟨"rental_income", ["rental", "ijara", "rent income", "аренда"], .income⟩,
  ⟨"refund", ["refund", "qaytarish", "return", "возврат"], .income⟩,
  ⟨"other_income", ["income", "daromad", "доход"], .income⟩,
  ⟨"borrowed", ["borrowed", "qarz oldim", "занял", "взял в долг"], .debt⟩,
  ⟨"lent", ["lent", "qarz berdim", "дал в долг", "одолжил"], .debt⟩,
  ⟨"debt_payment", ["debt payment", "qarz tolovi", "платёж", "погашение"], .debt⟩]

/-- Dictionary lookup `CATEGORIES.get(category_id)`. -/
def lookupCat (category_id : String) : Option Category :=
  CATEGORIES.find? (fun c => c.id == category_id)

/-- Python substring containment `needle in hay`. -/
def containsSub (hay needle : List Char) : Bool :=
  hay.tails.any (fun t => needle.isPrefixOf t)

/-- Does any keyword of the category occur in the (lowered) text? -/
def keywordHit (c : Category) (lower : List Char) : Bool :=
  c.keywords.any (fun kw => containsSub lower kw.data)

/-- The Python category classifier `detect_category`: lower-case the text,
scan the taxonomy for the first income category with a keyword hit, then for
the first expense category with a keyword hit, and fall back to
`other_expense`. -/
def detect_category (text : String) : String × TxType :=
  let lower := toLowerL text.data
  match CATEGORIES.find? (fun c => c.tx_type == TxType.income && keywordHit c lower) with
  | some c => (c.id, TxType.income)
  | none =>
    match CATEGORIES.find? (fun c => c.tx_type == TxType.expense && keywordHit c lower) with
    | some c => (c.id, TxType.expense)
    | none => ("other_expense", TxType.expense)

/-- Classifier phrased the way spec §4.2 words it: scan the income-kind
categories first, in taxonomy order, then the expense-kind ones, each time
returning the first category any of whose keywords is contained in the
lower-cased text; fall back to the `other_expense` expense category. -/
def detectCategorySpec (text : String) : String × TxType :=
  let lower := toLowerL text.data
  match (CATEGORIES.filter (fun c => c.tx_type == TxType.income)).find?
      (fun c => keywordHit c lower) with
  | some c => (c.id, TxType.income)
  | none =>
    match (CATEGORIES.filter (fun c => c.tx_type == TxType.expense)).find?
        (fun c => keywordHit c lower) with
    | some c => (c.id, TxType.expense)
    | none => ("other_expense", TxType.expense)


/-- The Python `PendingTransaction` dataclass: the per-user pending category
selection (`AwaitingAmount(categoryId, kind)` in spec §4.3). -/
structure PendingTransaction where
  category_id : String
  tx_type : TxType
  awaiting : String
deriving DecidableEq

/-- A stored ledger transaction row (the columns of the `transactions`
insert: description, amount, category_id, source). -/
structure Tx where
  description : String
  amount : ℤ
  category_id : String
  source : String
deriving DecidableEq

/-- A row of the budget-limit table.  `category = none` is the aggregate
monthly budget row (`budgets.category_key null`). -/
structure LimitRow where
  user : ℕ
  category : Option String
  limit_amount : ℕ
  enabled : Bool
deriving DecidableEq

/-- Observable outputs of a handler: replies to the user and budget-limit
notifications. -/
inductive Out where
  | cantParse (user : ℕ)
  | saved (user : ℕ) (category_id : String) (amount : ℤ)
  | limitWarning (user : ℕ) (category_id : String)
  | limitExceeded (user : ℕ) (category_id : String)
  | receiptError (user : ℕ)
deriving DecidableEq

/-- Global state: the per-user pending selection map, the per-user stored
balance, the per-user ledger, and the read-only budget-limit table. -/
structure GS where
  pending : ℕ → Option PendingTransaction
  balance : ℕ → ℤ
  ledger : ℕ → List Tx
  limits : List LimitRow

/-- Pointwise update of a keyed map. -/
def updMap {α : Type} (f : ℕ → α) (k : ℕ) (a : α) : ℕ → α :=
  fun x => if x = k then a else f x

/-- The initial store: every user at balance 0 with an empty ledger, no
pending selections, no budget limits. -/
def initGS : GS :=
  ⟨fun _ => none, fun _ => 0, fun _ => [], []⟩

/-- Display name of a category for a user, `get_cat_name`.  The locale
strings are presentation data outside the verified core, so the category
identifier stands in for the localized name. -/
def get_cat_name (cat : Category) : String :=
  cat.id

/-- Modelled from the spec: the SQL routine `update_balance` invoked through
`supabase.rpc` is not part of the sources; per §4.4/§6 it is the atomic
`applyBalanceDelta(userId, signedAmount)` primitive, and the code's own
read-then-write fallback (`current + amount`) fixes the same semantics:
add the signed amount to the stored balance. -/
def update_balance (gs : GS) (u : ℕ) (amount : ℤ) : GS :=
  { gs with balance := updMap gs.balance u (gs.balance u + amount) }

/-- The ledger record operation `save_transaction` / `saveTransaction`
(success path): insert the transaction row, then apply its signed amount to
the user's balance. -/
def save_transaction (gs : GS) (u : ℕ) (description : String) (amount : ℤ)
    (category_id source : String) : GS :=
  let gs1 := { gs with
    ledger := updMap gs.ledger u (gs.ledger u ++ [⟨description, amount, category_id, source⟩]) }
  update_balance gs1 u amount

/-- Consume the pending selection, `user_pending.pop(user.id, None)`. -/
def pop_pending (gs : GS) (u : ℕ) : GS :=
  { gs with pending := updMap gs.pending u none }

/-- The limit lookup `get_category_limit`: the first row for this user whose
category equals the given one (a SQL `eq` filter never matches the
null-category aggregate row, and the `enabled` flag is not part of the
query). -/
def get_category_limit (limits : List LimitRow) (u : ℕ) (category_id : String) : Option ℕ :=
  (limits.find? (fun r => r.user == u && r.category == some category_id)).map
    (fun r => r.limit_amount)

/-- Month-to-date spend for a category, `get_month_spent`: the sum of the
absolute values of the user's negative-amount transactions in that category.
The source's `created_at ≥ first-of-month` filter is represented by the
ledger holding the current month's rows; timestamps are not modelled. -/
def get_month_spent (gs : GS) (u : ℕ) (category_id : String) : ℕ :=
  (((gs.ledger u).filter
      (fun tx => tx.category_id == category_id && decide (tx.amount < 0))).map
    (fun tx => tx.amount.natAbs)).sum

/-- Percentage used, `int((spent / limit) * 100) if limit > 0 else 0`:
under exact arithmetic the truncated percentage is the natural-number
division `spent * 100 / limit` (`percent_py_eq_floor` states the
correspondence over `ℚ`). -/
def percent_py (spent limit : ℕ) : ℕ :=
  if 0 < limit then spent * 100 / limit else 0

/-- Classification of spend against a limit. -/
inductive LimitStatus where
  | ok
  | warning
  | exceeded
deriving DecidableEq

/-- The threshold classification of `check_and_notify_limit`:
`percent >= 100` is exceeded, else `percent >= 80` is a warning, else ok. -/
def limit_status (spent limit : ℕ) : LimitStatus :=
  let percent := percent_py spent limit
  if 100 ≤ percent then .exceeded
  else if 80 ≤ percent then .warning
  else .ok

/-- The budget-limit evaluation as performed by `check_and_notify_limit`:
look up the per-category limit; if there is none, or it is 0 (the Python
`if not limit` guard), the result is ok; otherwise classify the spend. -/
def evaluate (limits : List LimitRow) (u : ℕ) (category_id : String) (spent : ℕ) :
    LimitStatus :=
  match get_category_limit limits u category_id with
  | none => .ok
  | some l => if l = 0 then .ok else limit_status spent l

/-- The notifier `check_and_notify_limit`: with an effective (nonzero)
per-category limit and a known category, send the exceeded or warning
message according to the classification; otherwise stay silent. -/
def check_and_notify_limit (gs : GS) (u : ℕ) (category_id : String) : List Out :=
  match get_category_limit gs.limits u category_id with
  | none => []
  | some l =>
    if l = 0 then []
    else
      let spent := get_month_spent gs u category_id
      match lookupCat category_id with
      | none => []
      | some _ =>
        match limit_status spent l with
        | .exceeded => [.limitExceeded u category_id]
        | .warning => [.limitWarning u category_id]
        | .ok => []

/-- Sign resolution of the pending-selection flow (`text_handler`):
expense stores `-abs`, income stores `+abs`, and for debt the amount is
negative exactly when the pending category's id contains `"lent"`
(`if cat and "lent" in cat.id`), otherwise positive. -/
def final_amount (p : PendingTransaction) (amount : ℤ) : ℤ :=
  if p.tx_type == TxType.expense then -(amount.natAbs : ℤ)
  else if p.tx_type == TxType.income then (amount.natAbs : ℤ)
  else
    match lookupCat p.category_id with
    | some cat => if containsSub cat.id.data "lent".data then -(amount.natAbs : ℤ)
                  else (amount.natAbs : ℤ)
    | none => (amount.natAbs : ℤ)

/-- The Python text-message handler `text_handler`.  Commands never reach it
(the dispatcher registers it with `~filters.COMMAND`, and it re-checks
`text.startswith("/")`).  With a pending selection, the text is parsed only
for an amount (`if not amount` treats both a parse failure and a parsed 0 as
failure), the transaction is saved with the pending category, the pending
selection is consumed and limits are checked; without one, the full
parse-and-classify pipeline runs. -/
def text_handler (gs : GS) (u : ℕ) (raw : String) : GS × List Out :=
  let text : String := ⟨pyStrip raw.data⟩
  if text.data.head? == some '/' then (gs, [])
  else
    match gs.pending u with
    | some p =>
      match parse_amount text with
      | none => (gs, [.cantParse u])
      | some a =>
        if a = 0 then (gs, [.cantParse u])
        else
          let fin := final_amount p a
          match lookupCat p.category_id with
          | none => (gs, [])
          | some cat =>
            let gs1 := save_transaction gs u (get_cat_name cat) fin p.category_id "manual"
            let gs2 := pop_pending gs1 u
            let notes := check_and_notify_limit gs2 u p.category_id
            (gs2, notes ++ [.saved u p.category_id fin])
    | none =>
      match parse_amount text with
      | none => (gs, [.cantParse u])
      | some a =>
        if a = 0 then (gs, [.cantParse u])
        else
          let ct := detect_category text
          let category_id := ct.1
          let fin : ℤ := if ct.2 == TxType.expense then -(a.natAbs : ℤ) else (a.natAbs : ℤ)
          match lookupCat category_id with
          | none => (gs, [])
          | some _ =>
            let gs1 := save_transaction gs u text fin category_id "text"
            let notes := check_and_notify_limit gs1 u category_id
            (gs1, notes ++ [.saved u category_id fin])

/-- The recognized part of an OCR receipt analysis, the JSON
`{"amount": …, "vendor": …, "category": …}` returned by `analyze_receipt`
(`none` stands for a missing result or one carrying an `"error"` key). -/
structure OcrResult where
  amount : ℤ
  vendor : String
  category : String
deriving DecidableEq

/-- The Python receipt handler `photo_handler` from the point where the OCR
result is available: fix up an unknown category to `"shopping"`, negate the
absolute amount (no zero check), and save with source `"receipt"`. -/
def photo_handler (gs : GS) (u : ℕ) (result : Option OcrResult) : GS × List Out :=
  match result with
  | none => (gs, [.receiptError u])
  | some r =>
    let category_id := if (lookupCat r.category).isSome then r.category else "shopping"
    let fin : ℤ := -(r.amount.natAbs : ℤ)
    let gs1 := save_transaction gs u r.vendor fin category_id "receipt"
    (gs1, [.saved u category_id fin])


/-! Helper lemmas. -/

theorem updMap_same {α : Type} (f : ℕ → α) (k : ℕ) (a : α) : updMap f k a k = a := by
  simp [updMap]

theorem updMap_ne {α : Type} (f : ℕ → α) (k : ℕ) (a : α) {x : ℕ} (h : x ≠ k) :
    updMap f k a x = f x := by
  simp [updMap, h]

theorem find?_filter_eq {α : Type} (l : List α) (p q : α → Bool) :
    (l.filter p).find? q = l.find? (fun a => p a && q a) := by
  induction l with
  | nil => rfl
  | cons a l ih =>
    by_cases hp : p a
    · by_cases hq : q a <;> simp [List.filter_cons, List.find?, hp, hq, ih]
    · simp [List.filter_cons, List.find?, hp, ih]

theorem floor_natCast_div (a b : ℕ) : ⌊(a : ℚ) / (b : ℚ)⌋ = ((a / b : ℕ) : ℤ) := by
  rw [← Int.natCast_floor_eq_floor (by positivity)]
  rw [show ((b : ℚ)) = ((b : ℕ) : ℚ) from rfl, Nat.floor_div_nat, Nat.floor_natCast]

/-- `int(...)` on a nonnegative double truncates toward zero, which is the
floor of its exact value. -/
theorem fpTruncToNat_eq_floor (f : Fp) : ((fpTruncToNat f : ℕ) : ℤ) = ⌊Fp.val f⌋ := by
  unfold fpTruncToNat Fp.val
  split
  · rw [Int.floor_natCast]
  · rw [floor_natCast_div]

/-- The truncated percentage of the evaluator is the floor of the exact
ratio times 100 (the embedding of `int((spent / limit) * 100)`). -/
theorem percent_py_eq_floor (spent limit : ℕ) (hl : 0 < limit) :
    ((percent_py spent limit : ℕ) : ℤ) = ⌊((spent : ℚ) / limit) * 100⌋ := by
  have h : ((spent : ℚ) / limit) * 100 = ((spent * 100 : ℕ) : ℚ) / ((limit : ℕ) : ℚ) := by
    push_cast
    ring
  rw [percent_py, if_pos hl, h, floor_natCast_div]

/-- A recorded `final_amount` is plus or minus the parsed magnitude. -/
theorem final_amount_cases (p : PendingTransaction) (a : ℤ) :
    final_amount p a = (a.natAbs : ℤ) ∨ final_amount p a = -(a.natAbs : ℤ) := by
  unfold final_amount
  split
  · right; rfl
  · split
    · left; rfl
    · split
      · split
        · right; rfl
        · left; rfl
      · left; rfl

theorem final_amount_natAbs (p : PendingTransaction) (a : ℤ) :
    (final_amount p a).natAbs = a.natAbs := by
  rcases final_amount_cases p a with h | h <;> simp [h, Int.natAbs_abs]

/-! Claim theorems. -/

/-- One call of the ledger record operation, as issued by a caller:
user, description, raw signed amount, category and source. -/
structure RecordOp where
  user : ℕ
  description : String
  amount : ℤ
  category_id : String
  source : String

/-- Run a sequence of record operations from a given store state. -/
def apply_records (ops : List RecordOp) (gs : GS) : GS :=
  ops.foldl
    (fun g op => save_transaction g op.user op.description op.amount op.category_id op.source)
    gs

/-- The ledger/balance invariant of spec §3: the stored balance equals the
sum of the amounts of the user's ledger transactions. -/
def reconciled (gs : GS) (u : ℕ) : Prop :=
  gs.balance u = ((gs.ledger u).map Tx.amount).sum

theorem reconciled_save (gs : GS) (h : ∀ v, reconciled gs v) (u : ℕ) (d : String) (a : ℤ)
    (c s : String) : ∀ v, reconciled (save_transaction gs u d a c s) v := by
  intro v
  have hb := h v
  unfold reconciled at hb ⊢
  by_cases hv : v = u
  · subst hv
    simp [save_transaction, update_balance, updMap_same, hb]
  · simp [save_transaction, update_balance, updMap_ne _ _ _ hv, hb]

theorem reconciled_apply_records (ops : List RecordOp) :
    ∀ gs : GS, (∀ v, reconciled gs v) → ∀ v, reconciled (apply_records ops gs) v := by
  induction ops with
  | nil => intro gs h v; exact h v
  | cons op ops ih =>
    intro gs h v
    exact ih _ (reconciled_save gs h op.user op.description op.amount op.category_id op.source) v

/-- C1: after every successful ledger record call (`saveTransaction` /
`save_transaction`, modelled on their success path: the transaction is
inserted and the signed amount applied to the balance), for every user and
every sequence of recorded transactions the stored balance equals the sum of
amounts of that user's ledger — no dangling partial state on the success
path, starting from the store where every user has balance 0 and an empty
ledger. -/
theorem claim_C1 (ops : List RecordOp) (u : ℕ) : reconciled (apply_records ops initGS) u := by
  refine reconciled_apply_records ops initGS (fun v => ?_) u
  simp [reconciled, initGS]

/-- C2 counterexample: the sign of a debt-kind amount is a function of the
category id alone, and for the repayment category `debt_payment` it is
always positive — the stored amount for a repayment of 500 is +500 whatever
the direction of the repaid debt, so a repayment never "follows the
direction of what is being repaid" (repaying money the user borrowed is
outgoing money, which spec §3 requires to be negative). -/
theorem claim_C2_counterexample :
    final_amount ⟨"debt_payment", TxType.debt, "amount"⟩ 500 = 500 ∧
    final_amount ⟨"debt_payment", TxType.debt, "amount"⟩ (-500) = 500 := by
  constructor <;> rfl

/-- C2 (amended): expense kind stores `-abs(rawAmount)` and income kind
stores `+abs(rawAmount)` for every category; for debt kind the sign comes
from the category id alone — ids containing `"lent"` store `-abs` (money
lent decreases the balance), and all other debt categories, `borrowed`
(money borrowed increases the balance) and also the repayment category
`debt_payment`, store `+abs`; repayment direction is not resolved. -/
theorem claim_C2 (a : ℤ) (cid : String) :
    final_amount ⟨cid, TxType.expense, "amount"⟩ a = -(a.natAbs : ℤ) ∧
    final_amount ⟨cid, TxType.income, "amount"⟩ a = (a.natAbs : ℤ) ∧
    final_amount ⟨"borrowed", TxType.debt, "amount"⟩ a = (a.natAbs : ℤ) ∧
    final_amount ⟨"lent", TxType.debt, "amount"⟩ a = -(a.natAbs : ℤ) ∧
    final_amount ⟨"debt_payment", TxType.debt, "amount"⟩ a = (a.natAbs : ℤ) := by
  exact ⟨rfl, rfl, rfl, rfl, rfl⟩

theorem save_transaction_frame (gs : GS) (u : ℕ) (d : String) (a : ℤ) (c s : String) {v : ℕ}
    (hv : v ≠ u) :
    (save_transaction gs u d a c s).pending v = gs.pending v ∧
    (save_transaction gs u d a c s).balance v = gs.balance v ∧
    (save_transaction gs u d a c s).ledger v = gs.ledger v := by
  refine ⟨rfl, ?_, ?_⟩ <;> simp [save_transaction, update_balance, updMap_ne _ _ _ hv]

theorem pop_pending_frame (gs : GS) (u : ℕ) {v : ℕ} (hv : v ≠ u) :
    (pop_pending gs u).pending v = gs.pending v ∧
    (pop_pending gs u).balance v = gs.balance v ∧
    (pop_pending gs u).ledger v = gs.ledger v := by
  refine ⟨?_, rfl, rfl⟩
  simp [pop_pending, updMap_ne _ _ _ hv]

/-- Every state a text-message handler run can end in: the input state
itself, a single save for the handled user, or a save followed by the
consumption of that user's pending selection. -/
theorem text_handler_state (gs : GS) (u : ℕ) (raw : String) :
    (text_handler gs u raw).1 = gs ∨
    (∃ d a c s, (text_handler gs u raw).1 = save_transaction gs u d a c s) ∨
    (∃ d a c s, (text_handler gs u raw).1 = pop_pending (save_transaction gs u d a c s) u) := by
  simp only [text_handler]
  repeat' split
  all_goals
    first
      | exact Or.inl rfl
      | exact Or.inr (Or.inl ⟨_, _, _, _, rfl⟩)
      | exact Or.inr (Or.inr ⟨_, _, _, _, rfl⟩)

/-- C10: handling a text message from user `u` reads and writes only state
keyed by `u`; every other user's pending selection, balance and ledger are
unchanged. -/
theorem claim_C10 (gs : GS) (u : ℕ) (raw : String) (v : ℕ) (hv : v ≠ u) :
    (text_handler gs u raw).1.pending v = gs.pending v ∧
    (text_handler gs u raw).1.balance v = gs.balance v ∧
    (text_handler gs u raw).1.ledger v = gs.ledger v := by
  rcases text_handler_state gs u raw with h | ⟨d, a, c, s, h⟩ | ⟨d, a, c, s, h⟩
  · rw [h]; exact ⟨rfl, rfl, rfl⟩
  · rw [h]; exact save_transaction_frame gs u d a c s hv
  · rw [h]
    obtain ⟨h1, h2, h3⟩ := save_transaction_frame gs u d a c s hv
    obtain ⟨g1, g2, g3⟩ := pop_pending_frame (save_transaction gs u d a c s) u hv
    exact ⟨g1.trans h1, g2.trans h2, g3.trans h3⟩

/-- C10 witness: a concrete run for user 1 leaves user 2's state intact. -/
theorem claim_C10_witness :
    (text_handler initGS 1 "taxi 500" ).1.pending 2 = initGS.pending 2 ∧
    (text_handler initGS 1 "taxi 500" ).1.balance 2 = initGS.balance 2 ∧
    (text_handler initGS 1 "taxi 500" ).1.ledger 2 = initGS.ledger 2 :=
  claim_C10 initGS 1 "taxi 500" 2 (by decide)

/-- C3: for a user in `AwaitingAmount` (a pending selection whose category
id is in the taxonomy) who sends a non-command text message: on a parse
success (a positive magnitude — the Python handler treats `None` and `0`
alike as "no amount"), a transaction with the pending category and the
sign-resolved parsed amount is recorded, the balance is moved by it, and the
pending selection is consumed; on a parse failure, the whole state — that
user's pending selection included — is unchanged and the only output is the
parse-failure reply. -/
theorem claim_C3 (gs : GS) (u : ℕ) (raw : String) (p : PendingTransaction) (cat : Category)
    (hp : gs.pending u = some p)
    (hcat : lookupCat p.category_id = some cat)
    (hcmd : ((pyStrip raw.data).head? == some '/') = false) :
    (∀ a : ℤ, parse_amount ⟨pyStrip raw.data⟩ = some a → 0 < a →
      (text_handler gs u raw).1.pending u = none ∧
      (text_handler gs u raw).1.ledger u
        = gs.ledger u ++ [⟨get_cat_name cat, final_amount p a, p.category_id, "manual"⟩] ∧
      (text_handler gs u raw).1.balance u = gs.balance u + final_amount p a ∧
      (final_amount p a).natAbs = a.natAbs) ∧
    (parse_amount ⟨pyStrip raw.data⟩ = none →
      text_handler gs u raw = (gs, [Out.cantParse u])) := by
  constructor
  · intro a ha hpos
    have ha0 : ¬ a = 0 := by omega
    simp only [text_handler, hcmd, hp, ha, hcat, if_neg ha0, Bool.false_eq_true, if_false]
    refine ⟨?_, ?_, ?_, final_amount_natAbs p a⟩
    · simp [pop_pending, updMap_same]
    · simp [pop_pending, save_transaction, update_balance, updMap_same]
    · simp [pop_pending, save_transaction, update_balance, updMap_same]
  · intro hn
    simp only [text_handler, hcmd, hp, hn, Bool.false_eq_true, if_false]

/-- Concrete pending state for the C3 witness: user 1 picked the `taxi`
expense category. -/
def gsC3 : GS :=
  ⟨updMap (fun _ => none) 1 (some ⟨"taxi", TxType.expense, "amount"⟩), fun _ => 0, fun _ => [], []⟩

/-- C3 witness: the hypotheses hold for user 1 having picked `taxi` and then
sending `"500k"`, and the run records the expense and clears the pending
selection. -/
theorem claim_C3_witness :
    gsC3.pending 1 = some ⟨"taxi", TxType.expense, "amount"⟩ ∧
    parse_amount ⟨pyStrip "500k".data⟩ = some 500000 ∧
    (text_handler gsC3 1 "500k").1.pending 1 = none ∧
    (text_handler gsC3 1 "500k").1.ledger 1 = [⟨"taxi", -500000, "taxi", "manual"⟩] := by
  have h := claim_C3 gsC3 1 "500k" ⟨"taxi", TxType.expense, "amount"⟩
    ⟨"taxi", ["taxi", "taksi", "yandex", "uber", "такси", "bolt"], TxType.expense⟩
    rfl (by decide) (by decide)
  have hs := h.1 500000 (by decide) (by decide)
  refine ⟨rfl, by decide, hs.1, ?_⟩
  have := hs.2.1
  simpa [gsC3, get_cat_name, final_amount] using this

theorem parse_amount_nonneg (t : String) (n : ℤ) (h : parse_amount t = some n) : 0 ≤ n := by
  simp only [parse_amount] at h
  repeat' split at h
  all_goals (try exact Option.noConfusion h)
  all_goals (injection h with h; omega)

/-- C4 counterexample: the parser does not return "a positive integer
magnitude or a failure" — on `"0k"` the thousand tier captures `0` and the
parser returns the magnitude 0, which is neither positive nor a failure. -/
theorem claim_C4_counterexample :
    ¬ (∀ t : String, parse_amount t = none ∨ ∃ n : ℤ, parse_amount t = some n ∧ 0 < n) := by
  intro h
  rcases h "0k" with h0 | ⟨n, hn, hpos⟩
  · exact absurd h0 (by decide)
  · rw [show parse_amount "0k" = some 0 from by decide] at hn
    injection hn with hn
    omega

/-- C4 (amended): for every input text the Amount Parser returns either a
nonnegative integer magnitude or a "no amount found" failure (the magnitude
can be 0, e.g. for `"0k"`); and a decimal magnitude matched by the million
or thousand tier is converted to binary64, multiplied by the scale with
binary64 rounding (`float(g) * scale`), and then truncated toward zero to
an integer — the truncation of the nonnegative double product being its
floor. -/
theorem claim_C4 (t : String) :
    (parse_amount t = none ∨ ∃ n : ℤ, parse_amount t = some n ∧ 0 ≤ n) ∧
    (∀ d : DecNum, searchScaled millionSfxPy (pyStrip (toLowerL t.data)) = some d →
      parse_amount t = some ((fpTruncToNat (fpMulNat (fpOfDec d) 1000000) : ℕ) : ℤ) ∧
      ((fpTruncToNat (fpMulNat (fpOfDec d) 1000000) : ℕ) : ℤ)
        = ⌊Fp.val (fpMulNat (fpOfDec d) 1000000)⌋) ∧
    (∀ d : DecNum, searchScaled millionSfxPy (pyStrip (toLowerL t.data)) = none →
      searchScaled (thousandSfx isWordCharPy) (pyStrip (toLowerL t.data)) = some d →
      parse_amount t = some ((fpTruncToNat (fpMulNat (fpOfDec d) 1000) : ℕ) : ℤ) ∧
      ((fpTruncToNat (fpMulNat (fpOfDec d) 1000) : ℕ) : ℤ)
        = ⌊Fp.val (fpMulNat (fpOfDec d) 1000)⌋) := by
  refine ⟨?_, ?_, ?_⟩
  · cases h : parse_amount t with
    | none => exact Or.inl rfl
    | some n => exact Or.inr ⟨n, rfl, parse_amount_nonneg t n h⟩
  · intro d hd
    refine ⟨?_, fpTruncToNat_eq_floor _⟩
    simp only [parse_amount, hd, scaleTrunc]
  · intro d hm hd
    refine ⟨?_, fpTruncToNat_eq_floor _⟩
    simp only [parse_amount, hm, hd, scaleTrunc]

/-- C4 witness: on `"1.5m"` the million tier captures the decimal `1.5` and
the parser returns the truncated binary64 product (exactly 1 500 000 here);
and, matching CPython bit for bit, `parse_amount "1.001k" = 1000` (because
`float("1.001") * 1000 = 1000.9999999999999` truncates to 1000, not 1001),
`"8.7k" = 8700` and `"9.999999999999999k" = 9999`. -/
theorem claim_C4_witness :
    searchScaled millionSfxPy (pyStrip (toLowerL "1.5m".data)) = some ⟨15, 1⟩ ∧
    parse_amount "1.5m" = some ((fpTruncToNat (fpMulNat (fpOfDec ⟨15, 1⟩) 1000000) : ℕ) : ℤ) ∧
    parse_amount "1.5m" = some 1500000 ∧
    parse_amount "1.001k" = some 1000 ∧
    parse_amount "8.7k" = some 8700 ∧
    parse_amount "9.999999999999999k" = some 9999 := by
  exact ⟨by decide, ((claim_C4 "1.5m").2.1 ⟨15, 1⟩ (by decide)).1, by decide, by decide,
    by decide, by decide⟩

/-- C5: the concrete Amount Parser test vector of spec §8, checked against
both the Python `parse_amount` and the TypeScript `parseAmount`:
`"500000" ↦ 500000`, `"500k" ↦ 500000`, `"1.5m" ↦ 1500000`,
`"1,500,000" ↦ 1500000`, `"call me at 99" ↦` no amount found (the bare
digit run 99 is below the 100 floor), `"150 ming" ↦ 150000`. -/
theorem claim_C5 :
    parse_amount "500000" = some 500000 ∧
    parse_amount "500k" = some 500000 ∧
    parse_amount "1.5m" = some 1500000 ∧
    parse_amount "1,500,000" = some 1500000 ∧
    parse_amount "call me at 99" = none ∧
    parse_amount "150 ming" = some 150000 ∧
    parseAmount "500000" = some 500000 ∧
    parseAmount "500k" = some 500000 ∧
    parseAmount "1.5m" = some 1500000 ∧
    parseAmount "1,500,000" = some 1500000 ∧
    parseAmount "call me at 99" = none ∧
    parseAmount "150 ming" = some 150000 := by
  refine ⟨by decide, by decide, by decide, by decide, by decide, by decide, ?_, ?_, ?_, ?_, ?_, ?_⟩
  · simp only [parseAmount, show parseAmountCore "500000" = some (⟨500000, 0⟩, 1) from by decide,
      Option.map_some']
    rw [show fpMulNat (fpOfDec ⟨500000, 0⟩) 1 = ⟨500000 * 2 ^ 34, -34⟩ from by decide]
    norm_num [Fp.val, show Int.toNat 34 = 34 from rfl]
  · simp only [parseAmount, show parseAmountCore "500k" = some (⟨500, 0⟩, 1000) from by decide,
      Option.map_some']
    rw [show fpMulNat (fpOfDec ⟨500, 0⟩) 1000 = ⟨500000 * 2 ^ 34, -34⟩ from by decide]
    norm_num [Fp.val, show Int.toNat 34 = 34 from rfl]
  · simp only [parseAmount, show parseAmountCore "1.5m" = some (⟨15, 1⟩, 1000000) from by decide,
      Option.map_some']
    rw [show fpMulNat (fpOfDec ⟨15, 1⟩) 1000000 = ⟨1500000 * 2 ^ 32, -32⟩ from by decide]
    norm_num [Fp.val, show Int.toNat 32 = 32 from rfl]
  · simp only [parseAmount,
      show parseAmountCore "1,500,000" = some (⟨1500000, 0⟩, 1) from by decide, Option.map_some']
    rw [show fpMulNat (fpOfDec ⟨1500000, 0⟩) 1 = ⟨1500000 * 2 ^ 32, -32⟩ from by decide]
    norm_num [Fp.val, show Int.toNat 32 = 32 from rfl]
  · simp [parseAmount, show parseAmountCore "call me at 99" = none from by decide]
  · simp only [parseAmount, show parseAmountCore "150 ming" = some (⟨150, 0⟩, 1000) from by decide,
      Option.map_some']
    rw [show fpMulNat (fpOfDec ⟨150, 0⟩) 1000 = ⟨150000 * 2 ^ 35, -35⟩ from by decide]
    norm_num [Fp.val, show Int.toNat 35 = 35 from rfl]

/-- C6: the Category Classifier equals its specification — lower-case the
text, scan income-kind categories first in taxonomy order by
substring-containment of keywords and return the first match, else scan
expense-kind categories, else the `other_expense` fallback — and it never
returns a debt kind; the fallback id names an expense category of the
taxonomy. -/
theorem claim_C6 (t : String) :
    detect_category t = detectCategorySpec t ∧
    (detect_category t).2 ≠ TxType.debt ∧
    lookupCat "other_expense"
      = some ⟨"other_expense", ["other", "boshqa", "другое"], TxType.expense⟩ := by
  refine ⟨?_, ?_, by decide⟩
  · unfold detect_category detectCategorySpec
    simp only [find?_filter_eq]
  · unfold detect_category
    cases h1 : CATEGORIES.find?
        (fun c => c.tx_type == TxType.income && keywordHit c (toLowerL t.data)) with
    | some c => simp [h1]
    | none =>
      cases h2 : CATEGORIES.find?
          (fun c => c.tx_type == TxType.expense && keywordHit c (toLowerL t.data)) with
      | some c => simp [h1, h2]
      | none => simp [h1, h2]

/-- C7: with a positive enabled limit, the evaluator classifies by the exact
ratio `spend / limit`: the truncated percent is the floor of the ratio times
100, and exceeded ⟺ ratio ≥ 1, warning ⟺ 0.8 ≤ ratio < 1, ok ⟺
ratio < 0.8; concretely with limit 100000 a spend of 79999 is ok, 80000 is
a warning, 100000 is exceeded. -/
theorem claim_C7 (spent limit : ℕ) (hl : 0 < limit) :
    ((percent_py spent limit : ℕ) : ℤ) = ⌊((spent : ℚ) / limit) * 100⌋ ∧
    (limit_status spent limit = LimitStatus.exceeded ↔ (1 : ℚ) ≤ (spent : ℚ) / limit) ∧
    (limit_status spent limit = LimitStatus.warning ↔
      (8 : ℚ) / 10 ≤ (spent : ℚ) / limit ∧ (spent : ℚ) / limit < 1) ∧
    (limit_status spent limit = LimitStatus.ok ↔ (spent : ℚ) / limit < (8 : ℚ) / 10) ∧
    (limit_status 79999 100000 = LimitStatus.ok ∧
      limit_status 80000 100000 = LimitStatus.warning ∧
      limit_status 100000 100000 = LimitStatus.exceeded) := by
  have hq : (0 : ℚ) < (limit : ℚ) := by exact_mod_cast hl
  have h100 : 100 ≤ percent_py spent limit ↔ limit ≤ spent := by
    rw [percent_py, if_pos hl, Nat.le_div_iff_mul_le hl]
    omega
  have h80 : 80 ≤ percent_py spent limit ↔ 4 * limit ≤ 5 * spent := by
    rw [percent_py, if_pos hl, Nat.le_div_iff_mul_le hl]
    omega
  have hqge1 : (1 : ℚ) ≤ (spent : ℚ) / limit ↔ limit ≤ spent := by
    rw [one_le_div hq]
    exact_mod_cast Iff.rfl
  have hqlt1 : (spent : ℚ) / limit < 1 ↔ spent < limit := by
    rw [div_lt_one hq]
    exact_mod_cast Iff.rfl
  have hq80 : (8 : ℚ) / 10 ≤ (spent : ℚ) / limit ↔ 4 * limit ≤ 5 * spent := by
    rw [div_le_div_iff₀ (by norm_num) hq]
    constructor
    · intro h
      have h' : 8 * limit ≤ spent * 10 := by exact_mod_cast h
      omega
    · intro h
      have h' : 8 * limit ≤ spent * 10 := by omega
      exact_mod_cast h'
  have hex : limit_status spent limit = LimitStatus.exceeded ↔ limit ≤ spent := by
    unfold limit_status
    by_cases h1 : 100 ≤ percent_py spent limit
    · simp [h1, h100.mp h1]
    · have hnl : ¬ limit ≤ spent := fun hc => h1 (h100.mpr hc)
      by_cases h2 : 80 ≤ percent_py spent limit <;> simp [h1, h2, hnl]
  have hwa : limit_status spent limit = LimitStatus.warning ↔
      (4 * limit ≤ 5 * spent ∧ spent < limit) := by
    unfold limit_status
    by_cases h1 : 100 ≤ percent_py spent limit
    · have hls := h100.mp h1
      simp [h1, show ¬ spent < limit from by omega]
    · have hnl : ¬ limit ≤ spent := fun hc => h1 (h100.mpr hc)
      have hsl : spent < limit := by omega
      by_cases h2 : 80 ≤ percent_py spent limit
      · simp [h1, h2, h80.mp h2, hsl]
      · have hn45 : ¬ (4 * limit ≤ 5 * spent) := fun hc => h2 (h80.mpr hc)
        simp [h1, h2]
        omega
  have hok : limit_status spent limit = LimitStatus.ok ↔ ¬ (4 * limit ≤ 5 * spent) := by
    unfold limit_status
    by_cases h1 : 100 ≤ percent_py spent limit
    · have hls := h100.mp h1
      have h45 : 4 * limit ≤ 5 * spent := by omega
      simp [h1, h45]
    · by_cases h2 : 80 ≤ percent_py spent limit
      · simp [h1, h2, h80.mp h2]
      · have hn45 : ¬ (4 * limit ≤ 5 * spent) := fun hc => h2 (h80.mpr hc)
        simp [h1, h2]
        omega
  refine ⟨percent_py_eq_floor spent limit hl, ?_, ?_, ?_, by decide, by decide, by decide⟩
  · rw [hex]
    exact hqge1.symm
  · rw [hwa]
    exact and_congr hq80.symm hqlt1.symm
  · rw [hok, ← hq80]
    exact not_le

/-- C7 witness: the ratio classification and the three concrete boundary
spends, instantiated at the positive limit 100000. -/
theorem claim_C7_witness :
    (0 < 100000 ∧ limit_status 79999 100000 = LimitStatus.ok ∧
      limit_status 80000 100000 = LimitStatus.warning ∧
      limit_status 100000 100000 = LimitStatus.exceeded) :=
  ⟨by decide, (claim_C7 80000 100000 (by decide)).2.2.2.2⟩

/-- Budget evaluation as claim C8 and spec §4.5 word it: look up the
per-category enabled `BudgetLimit`, fall back to the aggregate null-category
enabled limit when no per-category one is enabled, and return ok when
neither is enabled. -/
def evaluateSpec_C8 (limits : List LimitRow) (u : ℕ) (category_id : String) (spent : ℕ) :
    LimitStatus :=
  let eff :=
    match limits.find? (fun r => r.user == u && r.category == some category_id && r.enabled) with
    | some r => some r.limit_amount
    | none =>
      (limits.find? (fun r => r.user == u && r.category == none && r.enabled)).map
        (fun r => r.limit_amount)
  match eff with
  | none => .ok
  | some l => if l = 0 then .ok else limit_status spent l

/-- C8 counterexample: with only an enabled aggregate (null-category) limit
of 100 and a month spend of 1000, the code's evaluator returns ok and sends
nothing (its lookup filters on the concrete category and never reaches the
null-category row), while the claimed fallback behaviour yields exceeded. -/
theorem claim_C8_counterexample :
    evaluate [⟨7, none, 100, true⟩] 7 "food" 1000 = LimitStatus.ok ∧
    evaluateSpec_C8 [⟨7, none, 100, true⟩] 7 "food" 1000 = LimitStatus.exceeded ∧
    check_and_notify_limit
      ⟨fun _ => none, fun _ => 0, updMap (fun _ => []) 7 [⟨"grocery", -1000, "food", "text"⟩],
        [⟨7, none, 100, true⟩]⟩ 7 "food" = [] := by
  exact ⟨by decide, by decide, by decide⟩

/-- C8 (amended): the evaluator looks up only the per-category limit row
(the `enabled` flag is not part of the query and the aggregate null-category
row is never consulted — filtering it away changes nothing); when no
per-category row exists the result is ok and no notification is sent. -/
theorem claim_C8 (limits : List LimitRow) (u : ℕ) (c : String) (spent : ℕ) (gs : GS) :
    (get_category_limit limits u c = none → evaluate limits u c spent = LimitStatus.ok) ∧
    (get_category_limit gs.limits u c = none → check_and_notify_limit gs u c = []) ∧
    (evaluate limits u c spent
      = evaluate (limits.filter (fun r => r.category.isSome)) u c spent) := by
  refine ⟨?_, ?_, ?_⟩
  · intro h
    simp [evaluate, h]
  · intro h
    simp [check_and_notify_limit, h]
  · have hpred : (fun r : LimitRow => r.category.isSome && (r.user == u && r.category == some c))
        = (fun r : LimitRow => r.user == u && r.category == some c) := by
      funext r
      cases hc : r.category
      · simp [hc, show ((none : Option String) == some c) = false from rfl]
      · simp [hc]
    have hfind : get_category_limit (limits.filter (fun r => r.category.isSome)) u c
        = get_category_limit limits u c := by
      unfold get_category_limit
      rw [find?_filter_eq, hpred]
    unfold evaluate
    rw [hfind]

/-- C8 witness: with an empty limit table the per-category lookup fails and
the evaluation is ok with no notification. -/
theorem claim_C8_witness :
    get_category_limit ([] : List LimitRow) 1 "food" = none ∧
    evaluate [] 1 "food" 0 = LimitStatus.ok ∧
    check_and_notify_limit initGS 1 "food" = [] := by
  exact ⟨rfl, (claim_C8 [] 1 "food" 0 initGS).1 rfl, (claim_C8 [] 1 "food" 0 initGS).2.1 rfl⟩

/-- C9, the code at the failing input: the receipt path saves the OCR amount
without any zero check, so an OCR result `{"amount": 0, "vendor": "Store",
"category": "shopping"}` records a ledger transaction whose amount is 0,
violating the `amount ≠ 0` invariant that the text paths enforce through
their `if not amount` guard. -/
theorem claim_C9 :
    (photo_handler initGS 5 (some ⟨0, "Store", "shopping"⟩)).1.ledger 5
      = [⟨"Store", 0, "shopping", "receipt"⟩] ∧
    (⟨"Store", 0, "shopping", "receipt"⟩ : Tx).amount = 0 := by
  exact ⟨by decide, rfl⟩

end Hamyon
